import Mathlib

/-!
Shallow embedding of the fitness-tracking-watch core: the `Wearer` aggregate
(day-bucketed step / calorie summaries, heart-rate streams, workout session
bookkeeping) and its sliding-window statistical queries, translated from the
JavaScript source (`Wearer` and `Workout` classes).

Modelling conventions:
* JS numbers carrying metric values (steps, calories) are `Nat`; query results
  produced by JS float division are `Rat`.
* A JS runtime `TypeError` (reading a property of `undefined`) is modelled by
  an `Option` result of `none`; a JS `NaN` arising from `0/0` inside the
  heart-rate averaging is likewise modelled by `none` in `Option Rat` values.
* The two-pointer while-loops are encoded as fuel-indexed structural
  recursions; the entry points supply `(length + 1) * (length + 1)` fuel,
  which strictly exceeds the number of iterations the JS loop can perform
  (each iteration advances the pair (slowPtr, fastPtr) lexicographically).
* `dayIndex` derivation is `floor(seconds / 86400)`, i.e. `Nat` division.
-/

namespace FitnessWatch

/-- Seconds per calendar day, as in `const secondsPerDay = 86400`. -/
def secondsPerDay : ℕ := 86400

/-- `daysSinceUnixEpoch = Math.floor(t / secondsPerDay)`. -/
def dayIndexOf (t : ℕ) : ℕ := t / secondsPerDay

/-- A per-day summary bucket, e.g. `{ daysSinceUnixEpoch: 18525, steps: 3484 }`.
The metric field (`steps` or `caloriesBurned`) is modelled uniformly as
`value`; calorie buckets additionally carry `workoutType` (steps buckets
leave it `none`, mirroring the absent JS property). -/
structure Bucket where
  daysSinceUnixEpoch : ℕ
  value : ℕ
  workoutType : Option String := none
deriving Repr, DecidableEq, Inhabited

/-- The object returned by `Workout.getWorkoutSummary` and fed to
`storeData`: `workoutId`/`endTime` are `null` until the workout finishes. -/
structure WorkoutSummary where
  workoutId : Option ℕ
  workoutType : String
  startTime : ℕ
  endTime : Option ℕ
  caloriesBurned : ℕ
  steps : ℕ
deriving Repr, DecidableEq, Inhabited

/-- Simulated watch data for one workout (external interface of the core):
`{ workoutId, workoutType, startTime, endTime, caloriesBurnedData, stepsData }`.
Absent sample arrays behave like empty ones (the JS `forEach` is skipped). -/
structure SimData where
  workoutId : ℕ
  workoutType : String
  startTime : ℕ
  endTime : ℕ
  caloriesBurnedData : List ℕ := []
  stepsData : List ℕ := []
deriving Repr, DecidableEq, Inhabited

/-- The `Workout` class state. -/
structure Workout where
  workoutId : Option ℕ
  workoutType : String
  startTime : ℕ
  endTime : Option ℕ
  caloriesBurned : ℕ
  steps : ℕ
  simulatedWatchData : SimData
deriving Repr, DecidableEq, Inhabited

/-- The `Workout` constructor: `startWorkoutRecording` captures type and start
time, then `processSimulatedData` folds every simulated calorie / step sample
into the running totals (pure accumulation from 0). -/
def Workout.create (simulatedWatchData : SimData) : Workout :=
  { workoutId := none
    workoutType := simulatedWatchData.workoutType
    startTime := simulatedWatchData.startTime
    endTime := none
    caloriesBurned := simulatedWatchData.caloriesBurnedData.sum
    steps := simulatedWatchData.stepsData.sum
    simulatedWatchData := simulatedWatchData }

/-- `finishWorkoutRecording`: capture `workoutId` and `endTime` from the
simulated watch data. -/
def Workout.finishRecording (wo : Workout) : Workout :=
  { wo with
    workoutId := some wo.simulatedWatchData.workoutId
    endTime := some wo.simulatedWatchData.endTime }

/-- `getWorkoutSummary`. -/
def Workout.summary (wo : Workout) : WorkoutSummary :=
  { workoutId := wo.workoutId
    workoutType := wo.workoutType
    startTime := wo.startTime
    endTime := wo.endTime
    caloriesBurned := wo.caloriesBurned
    steps := wo.steps }

/-- A raw heart-rate sample as stored by `storeHeartRateData`
(`Object.assign` of the incoming record with the derived day index). -/
structure HRSample where
  timeWhenMeasured : ℕ
  heartRate : ℚ
  daysSinceUnixEpoch : ℕ
deriving Repr, DecidableEq, Inhabited

/-- The incoming record `{ timeWhenMeasured, heartRate }`. -/
structure NewHeartRateData where
  timeWhenMeasured : ℕ
  heartRate : ℚ
deriving Repr, DecidableEq, Inhabited

/-- `heartRateData.rawData`: the two append-only streams. -/
structure HeartRateRaw where
  resting : List HRSample := []
  active : List HRSample := []
deriving Repr, DecidableEq, Inhabited

/-- One metric store: `{summary: [], rawData: []}`. -/
structure MetricStore where
  summary : List Bucket := []
  rawData : List WorkoutSummary := []
deriving Repr, DecidableEq, Inhabited

/-- The `Wearer` aggregate root. -/
structure Wearer where
  workoutInstance : Option Workout := none
  stepsData : MetricStore := {}
  caloriesBurnedData : MetricStore := {}
  heartRateData : HeartRateRaw := {}
  isResting : Bool := true
deriving Repr, DecidableEq, Inhabited

/-- A fresh wearer, as built by `new Wearer()` with no simulated data. -/
def Wearer.init : Wearer := {}

/-- The dynamic `dataCategory` string (restricted to the two metric stores
reached through reflective access `this[category + 'Data']`). -/
inductive Category where
  | steps
  | caloriesBurned
deriving Repr, DecidableEq

/-- Resolve `this[category + 'Data']`. -/
def Wearer.getStore (w : Wearer) : Category → MetricStore
  | Category.steps => w.stepsData
  | Category.caloriesBurned => w.caloriesBurnedData

/-- Write back the store selected by the category. -/
def Wearer.setStore (w : Wearer) (cat : Category) (st : MetricStore) : Wearer :=
  match cat with
  | Category.steps => { w with stepsData := st }
  | Category.caloriesBurned => { w with caloriesBurnedData := st }

/-- `newData[dataCategory]`: the metric value a sample carries for the
selected category. -/
def metricValue (s : WorkoutSummary) : Category → ℕ
  | Category.steps => s.steps
  | Category.caloriesBurned => s.caloriesBurned

/-- The freshly pushed payload of `storeData`: calorie buckets also record
`workoutType`; step buckets do not get that property. -/
def mkPayload (s : WorkoutSummary) (cat : Category) (day : ℕ) : Bucket :=
  { daysSinceUnixEpoch := day
    value := metricValue s cat
    workoutType := match cat with
      | Category.caloriesBurned => some s.workoutType
      | Category.steps => none }

/-- The summary-updating part of `storeData`: if the last bucket already has
the incoming `daysSinceUnixEpoch`, add the metric value in place, else push a
new payload bucket. -/
def storeSummary (summary : List Bucket) (newData : WorkoutSummary)
    (cat : Category) : List Bucket :=
  let daysSinceUnixEpoch := dayIndexOf newData.startTime
  match summary.getLast? with
  | some lastDataPoint =>
    if lastDataPoint.daysSinceUnixEpoch = daysSinceUnixEpoch then
      summary.dropLast ++
        [{ lastDataPoint with value := lastDataPoint.value + metricValue newData cat }]
    else
      summary ++ [mkPayload newData cat daysSinceUnixEpoch]
  | none => summary ++ [mkPayload newData cat daysSinceUnixEpoch]

/-- `Wearer.storeData(newData, dataCategory)`: merge into the summary and
append the raw sample. -/
def storeData (w : Wearer) (newData : WorkoutSummary) (cat : Category) : Wearer :=
  let src := w.getStore cat
  w.setStore cat
    { summary := storeSummary src.summary newData cat
      rawData := src.rawData ++ [newData] }

/-- `Wearer.storeHeartRateData`: derive the day index and append to the
resting or active stream depending on `isResting`. -/
def storeHeartRateData (w : Wearer) (newHeartRateData : NewHeartRateData) : Wearer :=
  let daysSinceUnixEpoch := dayIndexOf newHeartRateData.timeWhenMeasured
  let newData : HRSample :=
    { timeWhenMeasured := newHeartRateData.timeWhenMeasured
      heartRate := newHeartRateData.heartRate
      daysSinceUnixEpoch := daysSinceUnixEpoch }
  if w.isResting then
    { w with heartRateData :=
        { w.heartRateData with resting := w.heartRateData.resting ++ [newData] } }
  else
    { w with heartRateData :=
        { w.heartRateData with active := w.heartRateData.active ++ [newData] } }

/-- The `forEach` of `Wearer.processSimulatedData`: each heart-rate sample is
stored with `timeWhenMeasured` advancing by 60 seconds. -/
def processHR (w : Wearer) (timeWhenMeasured : ℕ) : List ℚ → Wearer
  | [] => w
  | heartRate :: rest =>
    processHR
      (storeHeartRateData w
        { timeWhenMeasured := timeWhenMeasured, heartRate := heartRate })
      (timeWhenMeasured + 60) rest

/-- Ghost description of the samples `processHR` appends: one `HRSample`
per bpm value, at a 60-second cadence from the given start time. -/
def mkSamples (timeWhenMeasured : ℕ) : List ℚ → List HRSample
  | [] => []
  | heartRate :: rest =>
    { timeWhenMeasured := timeWhenMeasured
      heartRate := heartRate
      daysSinceUnixEpoch := dayIndexOf timeWhenMeasured } ::
      mkSamples (timeWhenMeasured + 60) rest

/-- A simulated heart-rate batch `{ startTime, heartRate: [bpm...] }`. -/
structure HeartRateBatch where
  startTime : ℕ
  heartRate : List ℚ
deriving Repr, DecidableEq, Inhabited

/-- `Wearer.processSimulatedData`: replay a heart-rate batch (if present) at a
fixed 60-second cadence from its `startTime`. -/
def processSimulatedData (w : Wearer) (batch : Option HeartRateBatch) : Wearer :=
  match batch with
  | none => w
  | some b => processHR w b.startTime b.heartRate

/-- `Wearer.startWorkout`: refuse when a workout is in progress (the JS only
logs a message), otherwise clear `isResting` and create the session. -/
def startWorkout (w : Wearer) (simulatedWatchData : SimData) : Wearer :=
  match w.workoutInstance with
  | none =>
    { w with
      isResting := false
      workoutInstance := some (Workout.create simulatedWatchData) }
  | some _ => w

/-- `Wearer.endWorkout`: with no active session this only logs (no state
change, no summary). Otherwise finish the recording, fold the summary into
the steps and calories stores, drop the session and return the summary. -/
def endWorkout (w : Wearer) : Wearer × Option WorkoutSummary :=
  match w.workoutInstance with
  | none => (w, none)
  | some wi =>
    let wi2 := wi.finishRecording
    let summary := wi2.summary
    let w1 := storeData { w with isResting := true, workoutInstance := some wi2 }
      summary Category.steps
    let w2 := storeData w1 summary Category.caloriesBurned
    ({ w2 with workoutInstance := none }, some summary)

/-- The `'min'` / `'max'` selector of `Math[minOrMax]`. -/
inductive MinOrMax where
  | min
  | max
deriving Repr, DecidableEq

/-- `Math.min` / `Math.max` on the natural-valued running reduction. -/
def MinOrMax.apply : MinOrMax → ℕ → ℕ → ℕ
  | MinOrMax.min, a, b => Nat.min a b
  | MinOrMax.max, a, b => Nat.max a b

/-- Fuel bound strictly larger than the number of iterations any of the
two-pointer scans can perform on a list `l`. -/
def scanFuel (l : List Bucket) : ℕ := (l.length + 1) * (l.length + 1)

/-- The two-pointer while-loop of `getMinMaxSteps`, fuel-indexed.  State:
the running reduction `minOrMaxSteps` (0 doubles as the JS-falsy unseeded
marker), the open-window sum `totalSteps`, and the two pointers.  On
`diff === nDayPeriod - 1` the finished window sum is folded into the
reduction (re-seeding whenever the running value is 0) and the window
restarts at `slowPtr + 1`; on `diff < nDayPeriod` the fast bucket is folded
into the open window; otherwise the window restarts at `slowPtr + 1`. -/
def minMaxGo (mm : MinOrMax) (l : List Bucket) (nDayPeriod : ℕ) :
    ℕ → ℕ → ℕ → ℕ → ℕ → ℕ
  | 0, minOrMaxSteps, _, _, _ => minOrMaxSteps
  | fuel + 1, minOrMaxSteps, totalSteps, slowPtr, fastPtr =>
    if fastPtr < l.length then
      let diff : ℤ := ((l.getD fastPtr default).daysSinceUnixEpoch : ℤ) -
        ((l.getD slowPtr default).daysSinceUnixEpoch : ℤ)
      if diff = (nDayPeriod : ℤ) - 1 then
        let total2 := totalSteps + (l.getD fastPtr default).value
        let seeded := if minOrMaxSteps = 0 then total2 else minOrMaxSteps
        minMaxGo mm l nDayPeriod fuel (mm.apply seeded total2)
          ((l.getD (slowPtr + 1) default).value) (slowPtr + 1) (slowPtr + 2)
      else if diff < (nDayPeriod : ℤ) then
        minMaxGo mm l nDayPeriod fuel minOrMaxSteps
          (totalSteps + (l.getD fastPtr default).value) slowPtr (fastPtr + 1)
      else
        minMaxGo mm l nDayPeriod fuel minOrMaxSteps
          ((l.getD (slowPtr + 1) default).value) (slowPtr + 1) (slowPtr + 2)
    else minOrMaxSteps

/-- Ghost instrumentation of the identical scan: instead of reducing, collect
the sum of every window the loop completes (the `diff === nDayPeriod - 1`
events), in order. -/
def windowSumsGo (l : List Bucket) (nDayPeriod : ℕ) :
    ℕ → ℕ → ℕ → ℕ → List ℕ → List ℕ
  | 0, _, _, _, acc => acc
  | fuel + 1, totalSteps, slowPtr, fastPtr, acc =>
    if fastPtr < l.length then
      let diff : ℤ := ((l.getD fastPtr default).daysSinceUnixEpoch : ℤ) -
        ((l.getD slowPtr default).daysSinceUnixEpoch : ℤ)
      if diff = (nDayPeriod : ℤ) - 1 then
        windowSumsGo l nDayPeriod fuel
          ((l.getD (slowPtr + 1) default).value) (slowPtr + 1) (slowPtr + 2)
          (acc ++ [totalSteps + (l.getD fastPtr default).value])
      else if diff < (nDayPeriod : ℤ) then
        windowSumsGo l nDayPeriod fuel
          (totalSteps + (l.getD fastPtr default).value) slowPtr (fastPtr + 1) acc
      else
        windowSumsGo l nDayPeriod fuel
          ((l.getD (slowPtr + 1) default).value) (slowPtr + 1) (slowPtr + 2) acc
    else acc

/-- The ordered list of completed N-day window sums the scan records on a
summary list. -/
def windowSums (l : List Bucket) (nDayPeriod : ℕ) : List ℕ :=
  match l with
  | [] => []
  | b :: _ => windowSumsGo l nDayPeriod (scanFuel l) b.value 0 1 []

/-- `Wearer.getMinMaxSteps(nDayPeriod, minOrMax)`.  The JS guards compare
`this.stepsData.length` — the `length` of an object, i.e. `undefined` — with
0 and 1, so they never fire and control always reaches the two-pointer scan;
on an empty summary, `stepsSummary[0].steps` then throws a `TypeError`,
modelled as `none`. -/
def getMinMaxSteps (w : Wearer) (nDayPeriod : ℕ) (mm : MinOrMax) : Option ℕ :=
  match w.stepsData.summary with
  | [] => none
  | b :: _ =>
    some (minMaxGo mm w.stepsData.summary nDayPeriod
      (scanFuel w.stepsData.summary) 0 b.value 0 1)

/-- The two-pointer while-loop of `getAverageNumberOfSteps`, fuel-indexed;
returns `(completeNDayPeriods, totalStepsForCompleteNDayPeriods)`. -/
def avgStepsGo (l : List Bucket) (nDayPeriod : ℕ) :
    ℕ → ℕ → ℕ → ℕ → ℕ → ℕ → ℕ × ℕ
  | 0, completePeriods, totalComplete, _, _, _ => (completePeriods, totalComplete)
  | fuel + 1, completePeriods, totalComplete, totalSteps, slowPtr, fastPtr =>
    if fastPtr < l.length then
      let diff : ℤ := ((l.getD fastPtr default).daysSinceUnixEpoch : ℤ) -
        ((l.getD slowPtr default).daysSinceUnixEpoch : ℤ)
      if diff = (nDayPeriod : ℤ) - 1 then
        avgStepsGo l nDayPeriod fuel (completePeriods + 1)
          (totalComplete + (totalSteps + (l.getD fastPtr default).value))
          ((l.getD (slowPtr + 1) default).value) (slowPtr + 1) (slowPtr + 2)
      else if diff < (nDayPeriod : ℤ) then
        avgStepsGo l nDayPeriod fuel completePeriods totalComplete
          (totalSteps + (l.getD fastPtr default).value) slowPtr (fastPtr + 1)
      else
        avgStepsGo l nDayPeriod fuel completePeriods totalComplete
          ((l.getD (slowPtr + 1) default).value) (slowPtr + 1) (slowPtr + 2)
    else (completePeriods, totalComplete)

/-- `(completeNDayPeriods, totalStepsForCompleteNDayPeriods)` computed by the
scan on a summary list (the entry state of `getAverageNumberOfSteps`). -/
def completedWindowStats (l : List Bucket) (nDayPeriod : ℕ) : ℕ × ℕ :=
  match l with
  | [] => (0, 0)
  | b :: _ => avgStepsGo l nDayPeriod (scanFuel l) 0 0 b.value 0 1

/-- `Wearer.getAverageNumberOfSteps(nDayPeriod)`.  Same broken object-length
guards as `getMinMaxSteps` (empty summary throws, modelled `none`); otherwise
the completed-window total divided by the completed-window count, or 0 when
no window completed. -/
def getAverageNumberOfSteps (w : Wearer) (nDayPeriod : ℕ) : Option ℚ :=
  match w.stepsData.summary with
  | [] => none
  | b :: _ =>
    let r := avgStepsGo w.stepsData.summary nDayPeriod
      (scanFuel w.stepsData.summary) 0 0 b.value 0 1
    some (if r.1 = 0 then 0 else (r.2 : ℚ) / (r.1 : ℚ))

/-- The two-pointer while-loop of `getAverageCaloriesBurnedPerWorkout`,
fuel-indexed; returns `((completeNDayPeriods,
totalCaloriesBurnedForCompleteNDayPeriods), countOfDataPointsInNDayPeriod)`.
The count starts at 1, is incremented only in the still-open-window branch
and is never reset. -/
def calGo (l : List Bucket) (nDayPeriod : ℕ) :
    ℕ → ℕ → ℕ → ℕ → ℕ → ℕ → ℕ → (ℕ × ℕ) × ℕ
  | 0, completePeriods, totalComplete, _, count, _, _ =>
    ((completePeriods, totalComplete), count)
  | fuel + 1, completePeriods, totalComplete, totalCalories, count, slowPtr, fastPtr =>
    if fastPtr < l.length then
      let diff : ℤ := ((l.getD fastPtr default).daysSinceUnixEpoch : ℤ) -
        ((l.getD slowPtr default).daysSinceUnixEpoch : ℤ)
      if diff = (nDayPeriod : ℤ) - 1 then
        calGo l nDayPeriod fuel (completePeriods + 1)
          (totalComplete + (totalCalories + (l.getD fastPtr default).value))
          ((l.getD (slowPtr + 1) default).value) count (slowPtr + 1) (slowPtr + 2)
      else if diff < (nDayPeriod : ℤ) then
        calGo l nDayPeriod fuel completePeriods totalComplete
          (totalCalories + (l.getD fastPtr default).value) (count + 1)
          slowPtr (fastPtr + 1)
      else
        calGo l nDayPeriod fuel completePeriods totalComplete
          ((l.getD (slowPtr + 1) default).value) count (slowPtr + 1) (slowPtr + 2)
    else ((completePeriods, totalComplete), count)

/-- The full scan state of the calories query on a (filtered) list. -/
def calScanStats (l : List Bucket) (nDayPeriod : ℕ) : (ℕ × ℕ) × ℕ :=
  match l with
  | [] => ((0, 0), 1)
  | b :: _ => calGo l nDayPeriod (scanFuel l) 0 0 b.value 1 0 1

/-- `Wearer.getAverageCaloriesBurnedPerWorkout(nDayPeriod, workoutType)`:
filter the calorie summary by workout type; with no matching bucket the JS
reads `caloriesBurnedDataList[0].caloriesBurned` of `undefined` and throws
(modelled `none`).  Otherwise run the scan and divide the completed-window
total by `countOfDataPointsInNDayPeriod` (not by the window count), or
return 0 when no window completed. -/
def getAverageCaloriesBurnedPerWorkout (w : Wearer) (nDayPeriod : ℕ)
    (workoutType : String) : Option ℚ :=
  let caloriesBurnedDataList :=
    w.caloriesBurnedData.summary.filter
      (fun data => data.workoutType = some workoutType)
  match caloriesBurnedDataList with
  | [] => none
  | b :: _ =>
    let r := calGo caloriesBurnedDataList nDayPeriod
      (scanFuel caloriesBurnedDataList) 0 0 b.value 1 0 1
    some (if r.1.1 = 0 then 0 else (r.1.2 : ℚ) / (r.2 : ℚ))

/-- JS division `total / count` on the heart-rate path: `0 / 0` is `NaN`,
modelled as `none`. -/
def jsDiv (total : ℚ) (count : ℕ) : Option ℚ :=
  if count = 0 then none else some (total / (count : ℚ))

/-- The `forEach` of `getAverageRestingHeartRate`.  Faithful detail:
`lastSeenDaysSinceUnixEpoch` is captured once from the first sample and never
updated, so every sample is compared against the first day; a sample whose day
differs banks the running average (possibly `0/0 = NaN`) and is itself
discarded from the accumulators. -/
def hrFold (lastSeenDaysSinceUnixEpoch : ℕ) :
    List HRSample → ℚ → ℕ → List (Option ℚ) → ℚ × ℕ × List (Option ℚ)
  | [], total, count, banked => (total, count, banked)
  | s :: rest, total, count, banked =>
    if s.daysSinceUnixEpoch = lastSeenDaysSinceUnixEpoch then
      hrFold lastSeenDaysSinceUnixEpoch rest (total + s.heartRate) (count + 1) banked
    else
      hrFold lastSeenDaysSinceUnixEpoch rest 0 0 (banked ++ [jsDiv total count])

/-- Sum of a list of JS numbers with `NaN` (`none`) propagation, starting
from the reduce seed 0. -/
def jsSum (l : List (Option ℚ)) : Option ℚ :=
  l.foldl
    (fun acc cur =>
      match acc, cur with
      | some a, some b => some (a + b)
      | _, _ => none)
    (some 0)

/-- `Wearer.getAverageRestingHeartRate(nDayPeriod)`: the parameter is never
read.  Group the resting stream against the (never-updated) first day, bank
the final run when non-empty, then average the banked per-day averages with
the JS reduce (empty stream returns 0; an empty banked list would make the
reduce return its seed 0). -/
def getAverageRestingHeartRate (w : Wearer) (nDayPeriod : ℕ) : Option ℚ :=
  match w.heartRateData.resting with
  | [] => some 0
  | s0 :: _ =>
    let r := hrFold s0.daysSinceUnixEpoch w.heartRateData.resting 0 0 []
    let banked := if r.2.1 = 0 then r.2.2 else r.2.2 ++ [jsDiv r.1 r.2.1]
    match banked with
    | [] => some 0
    | _ :: _ => (jsSum banked).map (fun a => a / (banked.length : ℚ))

/-- A bucket sequence is strictly ordered by `daysSinceUnixEpoch`. -/
def SummaryOrdered (l : List Bucket) : Prop :=
  l.Pairwise (fun a b => a.daysSinceUnixEpoch < b.daysSinceUnixEpoch)

/-- A bucket sequence with no calendar gaps: consecutive buckets carry
consecutive day indices. -/
def NoGaps (l : List Bucket) : Prop :=
  l.Chain' (fun a b => b.daysSinceUnixEpoch = a.daysSinceUnixEpoch + 1)

instance (l : List Bucket) : Decidable (NoGaps l) :=
  inferInstanceAs (Decidable (List.Chain'
    (fun (a b : Bucket) => b.daysSinceUnixEpoch = a.daysSinceUnixEpoch + 1) l))

/-- Sum of the values of a bucket sequence. -/
def sumVals (l : List Bucket) : ℕ := (l.map Bucket.value).sum

/-- The calorie-summary twin of a step summary: same day indices and values,
every bucket tagged with the given workout type. -/
def taggedSummary (l : List Bucket) (t : String) : List Bucket :=
  l.map (fun b => { b with workoutType := some t })

/-- A wearer whose calorie summary is the tagged twin of its step summary. -/
def mkMatchedWearer (l : List Bucket) (t : String) : Wearer :=
  { stepsData := { summary := l }
    caloriesBurnedData := { summary := taggedSummary l t } }

/-- Fixture: two adjacent days of steps. -/
def twoDayWearer : Wearer :=
  { stepsData := { summary := [⟨0, 3, none⟩, ⟨1, 4, none⟩] } }

/-- Fixture: a first completed 2-day window summing to 0 followed by one
summing to 5. -/
def zeroSumWearer : Wearer :=
  { stepsData := { summary := [⟨0, 0, none⟩, ⟨1, 0, none⟩, ⟨2, 5, none⟩] } }

/-- Fixture: exactly one step bucket. -/
def singleBucketWearer : Wearer :=
  { stepsData := { summary := [⟨18525, 3484, none⟩] } }

/-- Fixture: a gapless two-day step summary with values 2 and 4. -/
def gaplessWearer : Wearer :=
  { stepsData := { summary := [⟨0, 2, none⟩, ⟨1, 4, none⟩] } }

/-- Fixture: resting heart-rate samples 80 and 100 bpm on day 0 followed by
60 bpm on day 1. -/
def hrTwoDayWearer : Wearer :=
  storeHeartRateData
    (storeHeartRateData (storeHeartRateData Wearer.init ⟨0, 80⟩) ⟨60, 100⟩)
    ⟨86400, 60⟩

/-- Fixture: a simulated 20-minute walk workout. -/
def walkFixture : SimData :=
  { workoutId := 1
    workoutType := "walk"
    startTime := 1600565100
    endTime := 1600566300
    caloriesBurnedData := [12, 14, 16, 18, 14]
    stepsData := [200, 210, 220, 260, 270] }

/-- Fixture: a wearer with a workout already in progress. -/
def busyWearer : Wearer := startWorkout Wearer.init walkFixture

/-- Fixture: a workout summary sample ending on day `18525`
(startTime `1600565100`). -/
def sampleA : WorkoutSummary :=
  { workoutId := some 1
    workoutType := "walk"
    startTime := 1600565100
    endTime := some 1600566300
    caloriesBurned := 74
    steps := 430 }

/-- Fixture: a second workout summary ending on the same day `18525`
(startTime `1600590000`). -/
def sampleB : WorkoutSummary :=
  { workoutId := some 2
    workoutType := "run"
    startTime := 1600590000
    endTime := some 1600591000
    caloriesBurned := 90
    steps := 1160 }

end FitnessWatch

namespace FitnessWatch

/-! ## Theorems -/

/-- **C10.** The result of `getAverageRestingHeartRate(N)` does not depend on
`N`: the `nDayPeriod` parameter is never read by the computation. -/
theorem getAverageRestingHeartRate_ignores_period (w : Wearer) (n m : ℕ) :
    getAverageRestingHeartRate w n = getAverageRestingHeartRate w m := rfl

/-- **C5.** On a wearer with no recorded data, the three bucket-scanning
queries do **not** return 0: the broken object-`length` guards let control
reach an indexing of `undefined`, raising a `TypeError` (modelled `none`).
Only the resting-heart-rate query returns 0. -/
theorem empty_wearer_queries_crash (n : ℕ) (mm : MinOrMax) (t : String) :
    getMinMaxSteps Wearer.init n mm = none ∧
    getAverageNumberOfSteps Wearer.init n = none ∧
    getAverageCaloriesBurnedPerWorkout Wearer.init n t = none ∧
    getAverageRestingHeartRate Wearer.init n = some 0 :=
  ⟨rfl, rfl, rfl, rfl⟩

/-- **C4.** On a wearer whose step summary holds exactly one bucket,
`getMinMaxSteps` returns 0 for every `N` and both modes — not the bucket's
steps value: the single-bucket guard compares the `length` of an object
(`undefined`) with 1 and never fires, and the scan loop performs no
iteration, leaving the reduction at its initial 0. -/
theorem getMinMaxSteps_single_bucket_returns_zero (n : ℕ) (mm : MinOrMax) :
    getMinMaxSteps singleBucketWearer n mm = some 0 := rfl

/-- **C6.** `getAverageRestingHeartRate` does not compute the two-level mean
on a stream spanning several days: with samples 80, 100 bpm on day 0 and
60 bpm on day 1, the mean over days of each day's mean is 75, but the code
returns 90 — `lastSeenDaysSinceUnixEpoch` is never updated and the
day-boundary sample is dropped from the accumulators. -/
theorem getAverageRestingHeartRate_drops_day_boundary_sample :
    getAverageRestingHeartRate hrTwoDayWearer 1 = some 90 ∧
    ((80 + 100 : ℚ) / 2 + 60) / 2 = 75 ∧ (90 : ℚ) ≠ 75 := by
  refine ⟨?_, by norm_num, by norm_num⟩
  have h : hrTwoDayWearer =
      { heartRateData := { resting :=
          [⟨0, 80, 0⟩, ⟨60, 100, 0⟩, ⟨86400, 60, 1⟩] } } := rfl
  rw [h]
  norm_num [getAverageRestingHeartRate, hrFold, jsDiv, jsSum]

/-- The collected-sums accumulator of `windowSumsGo` factors out. -/
lemma windowSumsGo_append (l : List Bucket) (n : ℕ) :
    ∀ fuel total slow fast acc,
      windowSumsGo l n fuel total slow fast acc
        = acc ++ windowSumsGo l n fuel total slow fast [] := by
  intro fuel
  induction fuel with
  | zero =>
    intro total slow fast acc
    simp [windowSumsGo]
  | succ fuel ih =>
    intro total slow fast acc
    simp only [windowSumsGo, List.nil_append]
    split
    · split
      · rw [ih]
        conv_rhs => rw [ih]
        rw [List.append_assoc]
      · split
        · exact ih _ _ _ _
        · exact ih _ _ _ _
    · simp

/-- The running max-mode reduction never decreases below its current value. -/
lemma minMaxGo_max_ge_init (l : List Bucket) (n : ℕ) :
    ∀ fuel m total slow fast,
      m ≤ minMaxGo MinOrMax.max l n fuel m total slow fast := by
  intro fuel
  induction fuel with
  | zero =>
    intro m total slow fast
    simp [minMaxGo]
  | succ fuel ih =>
    intro m total slow fast
    simp only [minMaxGo]
    split
    · split
      · refine le_trans ?_ (ih _ _ _ _)
        simp only [MinOrMax.apply]
        split
        · next h => exact h ▸ Nat.zero_le _
        · exact Nat.le_max_left _ _
      · split
        · exact ih _ _ _ _
        · exact ih _ _ _ _
    · exact le_refl m

/-- Max mode: the final reduction dominates every window sum the scan
records from the current state on. -/
lemma minMaxGo_max_ge_sums (l : List Bucket) (n : ℕ) :
    ∀ fuel total slow fast m s,
      s ∈ windowSumsGo l n fuel total slow fast [] →
      s ≤ minMaxGo MinOrMax.max l n fuel m total slow fast := by
  intro fuel
  induction fuel with
  | zero =>
    intro total slow fast m s hs
    simp [windowSumsGo] at hs
  | succ fuel ih =>
    intro total slow fast m s hs
    by_cases hg : fast < l.length
    · by_cases h1 : ((l.getD fast default).daysSinceUnixEpoch : ℤ) -
          ((l.getD slow default).daysSinceUnixEpoch : ℤ) = (n : ℤ) - 1
      · simp only [windowSumsGo, if_pos hg, if_pos h1, List.nil_append] at hs
        simp only [minMaxGo, if_pos hg, if_pos h1]
        rw [windowSumsGo_append] at hs
        rcases List.mem_append.mp hs with hs | hs
        · rw [List.mem_singleton] at hs
          subst hs
          refine le_trans ?_ (minMaxGo_max_ge_init l n fuel _ _ _ _)
          simp only [MinOrMax.apply]
          exact Nat.le_max_right _ _
        · exact ih _ _ _ _ _ hs
      · by_cases h2 : ((l.getD fast default).daysSinceUnixEpoch : ℤ) -
            ((l.getD slow default).daysSinceUnixEpoch : ℤ) < (n : ℤ)
        · simp only [windowSumsGo, if_pos hg, if_neg h1, if_pos h2] at hs
          simp only [minMaxGo, if_pos hg, if_neg h1, if_pos h2]
          exact ih _ _ _ _ _ hs
        · simp only [windowSumsGo, if_pos hg, if_neg h1, if_neg h2] at hs
          simp only [minMaxGo, if_pos hg, if_neg h1, if_neg h2]
          exact ih _ _ _ _ _ hs
    · simp [windowSumsGo, hg] at hs

/-- Min mode: provided no recorded window sum is zero (so the JS-falsy
re-seeding check cannot discard a zero minimum), the final reduction is below
every recorded window sum, and below the current value when seeded. -/
lemma minMaxGo_min_le_sums (l : List Bucket) (n : ℕ) :
    ∀ fuel total slow fast m,
      (∀ u ∈ windowSumsGo l n fuel total slow fast [], u ≠ 0) →
      (∀ s ∈ windowSumsGo l n fuel total slow fast [],
        minMaxGo MinOrMax.min l n fuel m total slow fast ≤ s) ∧
      (m ≠ 0 → minMaxGo MinOrMax.min l n fuel m total slow fast ≤ m) := by
  intro fuel
  induction fuel with
  | zero =>
    intro total slow fast m _
    constructor
    · intro s hs
      simp [windowSumsGo] at hs
    · intro _
      simp [minMaxGo]
  | succ fuel ih =>
    intro total slow fast m h0
    by_cases hg : fast < l.length
    · by_cases h1 : ((l.getD fast default).daysSinceUnixEpoch : ℤ) -
          ((l.getD slow default).daysSinceUnixEpoch : ℤ) = (n : ℤ) - 1
      · simp only [windowSumsGo, if_pos hg, if_pos h1, List.nil_append] at h0
        rw [windowSumsGo_append] at h0
        have ht2 : (total + (l.getD fast default).value) ≠ 0 :=
          h0 _ (List.mem_append.mpr (Or.inl (List.mem_singleton.mpr rfl)))
        have h0r : ∀ u ∈ windowSumsGo l n fuel
            ((l.getD (slow + 1) default).value) (slow + 1) (slow + 2) [], u ≠ 0 :=
          fun u hu => h0 u (List.mem_append.mpr (Or.inr hu))
        have hseed : (if m = 0 then (total + (l.getD fast default).value) else m) ≠ 0 := by
          split
          · exact ht2
          · assumption
        have hm2 : MinOrMax.apply MinOrMax.min
            (if m = 0 then (total + (l.getD fast default).value) else m)
            ((total + (l.getD fast default).value)) ≠ 0 := by
          simp only [MinOrMax.apply]
          have hpos : 0 < Nat.min
              (if m = 0 then (total + (l.getD fast default).value) else m)
              (total + (l.getD fast default).value) :=
            Nat.lt_min.mpr ⟨Nat.pos_of_ne_zero hseed, Nat.pos_of_ne_zero ht2⟩
          exact Nat.pos_iff_ne_zero.mp hpos
        obtain ⟨ihA, ihB⟩ := ih ((l.getD (slow + 1) default).value) (slow + 1)
          (slow + 2) (MinOrMax.apply MinOrMax.min
            (if m = 0 then (total + (l.getD fast default).value) else m)
            ((total + (l.getD fast default).value))) h0r
        constructor
        · intro s hs
          simp only [windowSumsGo, if_pos hg, if_pos h1, List.nil_append] at hs
          rw [windowSumsGo_append] at hs
          simp only [minMaxGo, if_pos hg, if_pos h1]
          rcases List.mem_append.mp hs with hs | hs
          · rw [List.mem_singleton] at hs
            subst hs
            refine le_trans (ihB hm2) ?_
            simp only [MinOrMax.apply]
            exact Nat.min_le_right _ _
          · exact ihA s hs
        · intro hm
          simp only [minMaxGo, if_pos hg, if_pos h1]
          refine le_trans (ihB hm2) ?_
          simp only [MinOrMax.apply, if_neg hm]
          exact Nat.min_le_left _ _
      · by_cases h2 : ((l.getD fast default).daysSinceUnixEpoch : ℤ) -
            ((l.getD slow default).daysSinceUnixEpoch : ℤ) < (n : ℤ)
        · simp only [windowSumsGo, if_pos hg, if_neg h1, if_pos h2] at h0 ⊢
          simp only [minMaxGo, if_pos hg, if_neg h1, if_pos h2]
          exact ih _ _ _ _ h0
        · simp only [windowSumsGo, if_pos hg, if_neg h1, if_neg h2] at h0 ⊢
          simp only [minMaxGo, if_pos hg, if_neg h1, if_neg h2]
          exact ih _ _ _ _ h0
    · constructor
      · intro s hs
        simp [windowSumsGo, hg] at hs
      · intro _
        simp [minMaxGo, hg]

/-- **C1 (amended).** For every step summary and window size `N ≥ 2`:
`getMinMaxSteps(N, 'max')` is at least every completed-window sum the scan
records, and — provided no completed-window sum is zero (a zero running
minimum re-triggers the JS-falsy seeding check and is discarded) —
`getMinMaxSteps(N, 'min')` is at most every such sum.  The reduction is
seeded by the first completed window's sum and then narrowed/widened. -/
theorem getMinMaxSteps_bounds_completed_window_sums (w : Wearer) (n : ℕ)
    (hn : 2 ≤ n) (s : ℕ) (hs : s ∈ windowSums w.stepsData.summary n) :
    (∃ r, getMinMaxSteps w n MinOrMax.max = some r ∧ s ≤ r) ∧
    ((∀ u ∈ windowSums w.stepsData.summary n, u ≠ 0) →
      ∃ r, getMinMaxSteps w n MinOrMax.min = some r ∧ r ≤ s) := by
  cases hsum : w.stepsData.summary with
  | nil =>
    rw [hsum] at hs
    simp [windowSums] at hs
  | cons b rest =>
    rw [hsum] at hs
    have hmax := minMaxGo_max_ge_sums (b :: rest) n (scanFuel (b :: rest))
      b.value 0 1 0 s (by simpa [windowSums] using hs)
    constructor
    · refine ⟨minMaxGo MinOrMax.max (b :: rest) n (scanFuel (b :: rest)) 0 b.value 0 1,
        ?_, hmax⟩
      unfold getMinMaxSteps
      rw [hsum]
    · intro h0
      have hmin := minMaxGo_min_le_sums (b :: rest) n (scanFuel (b :: rest))
        b.value 0 1 0 (by simpa [windowSums] using h0)
      refine ⟨minMaxGo MinOrMax.min (b :: rest) n (scanFuel (b :: rest)) 0 b.value 0 1,
        ?_, hmin.1 s (by simpa [windowSums] using hs)⟩
      unfold getMinMaxSteps
      rw [hsum]

/-- Witness for C1 at the two-day summary `[(day 0, 3), (day 1, 4)]` with
`N = 2`: the single completed window sums to 7, and both query modes bound
it. -/
theorem getMinMaxSteps_bounds_completed_window_sums_witness :
    (∃ r, getMinMaxSteps twoDayWearer 2 MinOrMax.max = some r ∧ 7 ≤ r) ∧
    (∃ r, getMinMaxSteps twoDayWearer 2 MinOrMax.min = some r ∧ r ≤ 7) := by
  have h := getMinMaxSteps_bounds_completed_window_sums twoDayWearer 2
    (by decide) 7 (by decide)
  exact ⟨h.1, h.2 (by decide)⟩

/-- Counterexample to C1 as stated: on the summary
`[(day 0, 0), (day 1, 0), (day 2, 5)]` with `N = 2`, the window over days
0–1 is completed with sum 0, yet `getMinMaxSteps(2, 'min')` returns 5:
after the zero first-window sum the running minimum is 0, which the JS-falsy
seeding check treats as unseeded and overwrites with the next window's sum. -/
theorem getMinMaxSteps_min_exceeds_zero_window_sum :
    getMinMaxSteps zeroSumWearer 2 MinOrMax.min = some 5 ∧
    0 ∈ windowSums zeroSumWearer.stepsData.summary 2 ∧ ¬ (5 ≤ 0) := by
  decide

/-- In a gapless summary, the day index at position `i` is the first day
plus `i`. -/
lemma noGaps_getD (l : List Bucket) (hg : NoGaps l) :
    ∀ i, i < l.length →
      (l.getD i default).daysSinceUnixEpoch
        = (l.getD 0 default).daysSinceUnixEpoch + i := by
  intro i
  induction i with
  | zero =>
    intro _
    simp
  | succ i ih =>
    intro hi
    have hi' : i < l.length := by omega
    have hstep := (List.chain'_iff_get.mp hg) i (by omega)
    rw [List.getD_eq_getElem l default hi, List.getD_eq_getElem l default hi'] at *
    rw [List.get_eq_getElem, List.get_eq_getElem] at hstep
    rw [hstep, ih hi']
    omega

/-- Extending a value-sum over a take by one position. -/
lemma sumVals_take_succ (l : List Bucket) (f : ℕ) (hf : f < l.length) :
    sumVals (l.take (f + 1)) = sumVals (l.take f) + (l.getD f default).value := by
  unfold sumVals
  have hf2 : f < (l.map Bucket.value).length := by simpa using hf
  rw [List.getD_eq_getElem l default hf, List.map_take, List.map_take,
    List.take_succ, List.getElem?_eq_getElem hf2]
  simp

/-- Tail phase of `getAverageNumberOfSteps` at `N = l.length` on a gapless
summary: once `slowPtr ≥ 1`, no further window can complete (every remaining
day difference is at most `length - 2`), so the accumulated pair is
returned unchanged, whatever the fuel. -/
lemma avgStepsGo_tail (l : List Bucket) (hg : NoGaps l) :
    ∀ fuel c tc total slow fast, 1 ≤ slow → slow < fast →
      avgStepsGo l l.length fuel c tc total slow fast = (c, tc) := by
  intro fuel
  induction fuel with
  | zero =>
    intro c tc total slow fast _ _
    simp [avgStepsGo]
  | succ fuel ih =>
    intro c tc total slow fast hslow hsf
    by_cases hgrd : fast < l.length
    · have efast := noGaps_getD l hg fast hgrd
      have eslow := noGaps_getD l hg slow (by omega)
      have h1 : ¬ (((l.getD fast default).daysSinceUnixEpoch : ℤ) -
          ((l.getD slow default).daysSinceUnixEpoch : ℤ) = (l.length : ℤ) - 1) := by
        rw [efast, eslow]
        push_cast
        omega
      have h2 : ((l.getD fast default).daysSinceUnixEpoch : ℤ) -
          ((l.getD slow default).daysSinceUnixEpoch : ℤ) < (l.length : ℤ) := by
        rw [efast, eslow]
        push_cast
        omega
      simp only [avgStepsGo, if_pos hgrd, if_neg h1, if_pos h2]
      exact ih c tc _ slow (fast + 1) hslow (by omega)
    · simp [avgStepsGo, hgrd]

/-- Head phase of `getAverageNumberOfSteps` at `N = l.length` on a gapless
summary: scanning from `slowPtr = 0` folds every bucket into the single
window that completes at the last position, then the tail phase changes
nothing: the scan yields exactly one completed window, summing all values. -/
lemma avgStepsGo_head (l : List Bucket) (hg : NoGaps l) (hL : 2 ≤ l.length) :
    ∀ fuel f, 1 ≤ f → f ≤ l.length - 1 → l.length - f ≤ fuel →
      avgStepsGo l l.length fuel 0 0 (sumVals (l.take f)) 0 f = (1, sumVals l) := by
  intro fuel
  induction fuel with
  | zero =>
    intro f _ hf2 hfuel
    omega
  | succ fuel ih =>
    intro f hf1 hf2 hfuel
    have hgrd : f < l.length := by omega
    have efast := noGaps_getD l hg f hgrd
    have ezero : (l.getD 0 default).daysSinceUnixEpoch
        = (l.getD 0 default).daysSinceUnixEpoch + 0 := by omega
    by_cases hf : f = l.length - 1
    · have h1 : ((l.getD f default).daysSinceUnixEpoch : ℤ) -
          ((l.getD 0 default).daysSinceUnixEpoch : ℤ) = (l.length : ℤ) - 1 := by
        rw [efast]
        push_cast
        omega
      simp only [avgStepsGo, if_pos hgrd, if_pos h1]
      have etotal : sumVals (l.take f) + (l.getD f default).value = sumVals l := by
        rw [← sumVals_take_succ l f hgrd]
        have : f + 1 = l.length := by omega
        rw [this, List.take_length]
      rw [etotal]
      have := avgStepsGo_tail l hg fuel (0 + 1) (0 + sumVals l)
        ((l.getD (0 + 1) default).value) (0 + 1) (0 + 2) (by omega) (by omega)
      simpa using this
    · have h1 : ¬ (((l.getD f default).daysSinceUnixEpoch : ℤ) -
          ((l.getD 0 default).daysSinceUnixEpoch : ℤ) = (l.length : ℤ) - 1) := by
        rw [efast]
        push_cast
        omega
      have h2 : ((l.getD f default).daysSinceUnixEpoch : ℤ) -
          ((l.getD 0 default).daysSinceUnixEpoch : ℤ) < (l.length : ℤ) := by
        rw [efast]
        push_cast
        omega
      simp only [avgStepsGo, if_pos hgrd, if_neg h1, if_pos h2]
      rw [← sumVals_take_succ l f hgrd]
      exact ih (f + 1) (by omega) (by omega) (by omega)

/-- `l.length - 1` iterations always fit in the scan fuel. -/
lemma scanFuel_ge (l : List Bucket) : l.length - 1 ≤ scanFuel l := by
  unfold scanFuel
  calc l.length - 1 ≤ 1 * (l.length + 1) := by omega
  _ ≤ (l.length + 1) * (l.length + 1) := Nat.mul_le_mul_right _ (by omega)

/-- **C3 (amended).** On a gapless step summary of `L ≥ 2` buckets, the
average-steps query with `N = L` returns the **sum** of all bucket values —
the whole sequence completes exactly one window, whose sum is divided by the
completed-window count 1 — not the arithmetic mean of the bucket values. -/
theorem getAverageNumberOfSteps_full_span_eq_total (w : Wearer)
    (hg : NoGaps w.stepsData.summary) (hL : 2 ≤ w.stepsData.summary.length) :
    getAverageNumberOfSteps w w.stepsData.summary.length
      = some ((sumVals w.stepsData.summary : ℚ)) := by
  cases hsum : w.stepsData.summary with
  | nil =>
    rw [hsum] at hL
    simp at hL
  | cons b rest =>
    rw [hsum] at hg hL
    have hhead := avgStepsGo_head (b :: rest) hg hL (scanFuel (b :: rest)) 1
      (le_refl 1) (by omega) (scanFuel_ge (b :: rest))
    have htake : sumVals ((b :: rest).take 1) = b.value := by
      simp [sumVals]
    rw [htake] at hhead
    unfold getAverageNumberOfSteps
    rw [hsum]
    simp only [hhead]
    norm_num

/-- Witness for C3 at the gapless summary `[(day 0, 2), (day 1, 4)]` with
`N = 2`. -/
theorem getAverageNumberOfSteps_full_span_eq_total_witness :
    getAverageNumberOfSteps gaplessWearer 2
      = some ((sumVals gaplessWearer.stepsData.summary : ℚ)) :=
  getAverageNumberOfSteps_full_span_eq_total gaplessWearer
    (by simp [NoGaps, gaplessWearer]) (by decide)

/-- Counterexample to C3 as stated: on the gapless summary
`[(day 0, 2), (day 1, 4)]` with `N = 2` (the total number of days), the query
returns 6 — the completed window's sum divided by the window count 1 — while
the simple arithmetic mean of the bucket values is 3. -/
theorem getAverageNumberOfSteps_full_span_not_mean :
    getAverageNumberOfSteps gaplessWearer 2 = some 6 ∧
    (2 + 4 : ℚ) / 2 = 3 ∧ (6 : ℚ) ≠ 3 := by
  refine ⟨?_, by norm_num, by norm_num⟩
  have hhead := avgStepsGo_head ([⟨0, 2, none⟩, ⟨1, 4, none⟩] : List Bucket)
    (by simp [NoGaps]) (by norm_num) (scanFuel [⟨0, 2, none⟩, ⟨1, 4, none⟩]) 1
    (le_refl 1) (by norm_num) (scanFuel_ge [⟨0, 2, none⟩, ⟨1, 4, none⟩])
  have hlen : ([⟨0, 2, none⟩, ⟨1, 4, none⟩] : List Bucket).length = 2 := rfl
  have htake : sumVals (([⟨0, 2, none⟩, ⟨1, 4, none⟩] : List Bucket).take 1)
      = 2 := by decide
  have hsum6 : sumVals ([⟨0, 2, none⟩, ⟨1, 4, none⟩] : List Bucket) = 6 := by
    decide
  rw [hlen, htake, hsum6] at hhead
  have hW : gaplessWearer.stepsData.summary
      = [⟨0, 2, none⟩, ⟨1, 4, none⟩] := rfl
  unfold getAverageNumberOfSteps
  rw [hW]
  simp only [hhead]
  norm_num

/-- Tagging a summary changes neither positional day indices nor values. -/
lemma taggedSummary_getD (l : List Bucket) (t : String) (i : ℕ) :
    ((taggedSummary l t).getD i default).daysSinceUnixEpoch
        = (l.getD i default).daysSinceUnixEpoch ∧
    ((taggedSummary l t).getD i default).value = (l.getD i default).value := by
  unfold taggedSummary
  by_cases hi : i < l.length
  · have hi2 : i < (l.map
        (fun b => { b with workoutType := some t })).length := by simpa using hi
    rw [List.getD_eq_getElem _ default hi2, List.getD_eq_getElem l default hi]
    simp
  · have h1 : l.length ≤ i := by omega
    have h2 : (l.map (fun b => { b with workoutType := some t })).length ≤ i := by
      simpa using h1
    rw [List.getD_eq_default _ default h1, List.getD_eq_default _ default h2]
    exact ⟨rfl, rfl⟩

/-- The calorie scan on a tagged twin of a step summary computes exactly the
steps scan's `(completed windows, completed total)` pair: the two loops share
their control flow, the calorie loop merely threads its extra data-point
counter alongside. -/
lemma calGo_fst_eq_avgStepsGo (l : List Bucket) (t : String) (n : ℕ) :
    ∀ fuel c tc total cnt slow fast,
      (calGo (taggedSummary l t) n fuel c tc total cnt slow fast).1
        = avgStepsGo l n fuel c tc total slow fast := by
  intro fuel
  induction fuel with
  | zero =>
    intro c tc total cnt slow fast
    simp [calGo, avgStepsGo]
  | succ fuel ih =>
    intro c tc total cnt slow fast
    have hlen : (taggedSummary l t).length = l.length := by simp [taggedSummary]
    obtain ⟨hdf, hvf⟩ := taggedSummary_getD l t fast
    obtain ⟨hds, _⟩ := taggedSummary_getD l t slow
    obtain ⟨_, hvs1⟩ := taggedSummary_getD l t (slow + 1)
    simp only [calGo, avgStepsGo, hlen, hdf, hds, hvf, hvs1]
    split
    · split
      · exact ih _ _ _ _ _ _
      · split
        · exact ih _ _ _ _ _ _
        · exact ih _ _ _ _ _ _
    · rfl

/-- **C7 (amended).** On a wearer whose calorie summary is the tagged twin of
its step summary, `getAverageCaloriesBurnedPerWorkout(N, t)` computes exactly
the same completed-window count and completed-window total as
`getAverageNumberOfSteps(N)`, but divides that total by its running
data-point counter — a counter initialised to 1, incremented only when a
sample is folded into a still-open window, and never reset — instead of the
completed-window count used by the steps average. -/
theorem getAverageCalories_shares_steps_window_stats (l : List Bucket)
    (t : String) (n : ℕ) (hl : l ≠ []) :
    (calScanStats (taggedSummary l t) n).1 = completedWindowStats l n ∧
    getAverageNumberOfSteps (mkMatchedWearer l t) n
      = some (if (completedWindowStats l n).1 = 0 then 0
          else ((completedWindowStats l n).2 : ℚ) /
            ((completedWindowStats l n).1 : ℚ)) ∧
    getAverageCaloriesBurnedPerWorkout (mkMatchedWearer l t) n t
      = some (if (completedWindowStats l n).1 = 0 then 0
          else ((completedWindowStats l n).2 : ℚ) /
            ((calScanStats (taggedSummary l t) n).2 : ℚ)) := by
  cases l with
  | nil => exact absurd rfl hl
  | cons b rest =>
    have htag : taggedSummary (b :: rest) t
        = { b with workoutType := some t } :: taggedSummary rest t := rfl
    have hflt : (taggedSummary (b :: rest) t).filter
        (fun data => data.workoutType = some t) = taggedSummary (b :: rest) t := by
      refine List.filter_eq_self.mpr ?_
      intro x hx
      unfold taggedSummary at hx
      obtain ⟨a, _, rfl⟩ := List.mem_map.mp hx
      simp
    have hfuel : scanFuel (taggedSummary (b :: rest) t)
        = scanFuel (b :: rest) := by
      simp [scanFuel, taggedSummary]
    have hcs : calScanStats (taggedSummary (b :: rest) t) n
        = calGo (taggedSummary (b :: rest) t) n
            (scanFuel (taggedSummary (b :: rest) t)) 0 0 b.value 1 0 1 := by
      rw [htag]
      rfl
    have hstats : (calScanStats (taggedSummary (b :: rest) t) n).1
        = completedWindowStats (b :: rest) n := by
      rw [hcs, hfuel, calGo_fst_eq_avgStepsGo]
      rfl
    refine ⟨hstats, rfl, ?_⟩
    have hsummary : (mkMatchedWearer (b :: rest) t).caloriesBurnedData.summary
        = taggedSummary (b :: rest) t := rfl
    have hq : getAverageCaloriesBurnedPerWorkout (mkMatchedWearer (b :: rest) t) n t
        = some (if (calScanStats (taggedSummary (b :: rest) t) n).1.1 = 0 then 0
            else ((calScanStats (taggedSummary (b :: rest) t) n).1.2 : ℚ) /
              ((calScanStats (taggedSummary (b :: rest) t) n).2 : ℚ)) := by
      unfold getAverageCaloriesBurnedPerWorkout
      rw [hsummary, hflt, htag]
      rfl
    rw [hq, hstats]

/-- Witness for C7 at the matched two-day summary
`[(day 0, 10), (day 1, 20)]`, `t = "walk"`, `N = 2`. -/
theorem getAverageCalories_shares_steps_window_stats_witness :
    (calScanStats (taggedSummary [⟨0, 10, none⟩, ⟨1, 20, none⟩] "walk") 2).1
        = completedWindowStats [⟨0, 10, none⟩, ⟨1, 20, none⟩] 2 ∧
    getAverageNumberOfSteps
        (mkMatchedWearer [⟨0, 10, none⟩, ⟨1, 20, none⟩] "walk") 2
      = some (if (completedWindowStats [⟨0, 10, none⟩, ⟨1, 20, none⟩] 2).1 = 0
          then 0
          else ((completedWindowStats [⟨0, 10, none⟩, ⟨1, 20, none⟩] 2).2 : ℚ) /
            ((completedWindowStats [⟨0, 10, none⟩, ⟨1, 20, none⟩] 2).1 : ℚ)) ∧
    getAverageCaloriesBurnedPerWorkout
        (mkMatchedWearer [⟨0, 10, none⟩, ⟨1, 20, none⟩] "walk") 2 "walk"
      = some (if (completedWindowStats [⟨0, 10, none⟩, ⟨1, 20, none⟩] 2).1 = 0
          then 0
          else ((completedWindowStats [⟨0, 10, none⟩, ⟨1, 20, none⟩] 2).2 : ℚ) /
            ((calScanStats
              (taggedSummary [⟨0, 10, none⟩, ⟨1, 20, none⟩] "walk") 2).2 : ℚ)) :=
  getAverageCalories_shares_steps_window_stats
    [⟨0, 10, none⟩, ⟨1, 20, none⟩] "walk" 2 (by simp)

/-- Counterexample to C7 as stated: on matched calorie buckets
`[(day 0, 10 cal), (day 1, 20 cal)]` (both tagged `walk`) with `N = 2`, the
single completed window sums to 30 and folds 2 data points, so the claimed
formula yields 30 / 2 = 15 — but the code returns 30: its divisor counter
(still at its initial value 1, because the window-completing sample is never
counted) is neither the folded-point count 2 nor (in general) the
completed-window count. -/
theorem getAverageCalories_divisor_not_point_count :
    getAverageCaloriesBurnedPerWorkout
        (mkMatchedWearer [⟨0, 10, none⟩, ⟨1, 20, none⟩] "walk") 2 "walk"
      = some 30 ∧
    (10 + 20 : ℚ) / 2 = 15 ∧ (30 : ℚ) ≠ 15 := by
  refine ⟨?_, by norm_num, by norm_num⟩
  have hcal : ((mkMatchedWearer [⟨0, 10, none⟩, ⟨1, 20, none⟩]
        "walk").caloriesBurnedData.summary).filter
        (fun data => data.workoutType = some "walk")
      = [⟨0, 10, some "walk"⟩, ⟨1, 20, some "walk"⟩] := by decide
  have hgo : calGo [⟨0, 10, some "walk"⟩, ⟨1, 20, some "walk"⟩] 2
      (scanFuel [⟨0, 10, some "walk"⟩, ⟨1, 20, some "walk"⟩]) 0 0
      (Bucket.value ⟨0, 10, some "walk"⟩) 1 0 1 = ((1, 30), 1) := by decide
  unfold getAverageCaloriesBurnedPerWorkout
  rw [hcal]
  simp only [hgo]
  norm_num

/-- A list's `getLast?`, when it yields a value, yields a member. -/
lemma mem_of_getLast?_eq_some {l : List Bucket} {a : Bucket}
    (h : l.getLast? = some a) : a ∈ l := by
  have hne : l ≠ [] := by
    rintro rfl
    simp at h
  rw [List.getLast?_eq_getLast_of_ne_nil hne] at h
  exact (Option.some.inj h) ▸ List.getLast_mem hne

/-- Reading back the store just written. -/
lemma getStore_setStore (w : Wearer) (cat : Category) (st : MetricStore) :
    (w.setStore cat st).getStore cat = st := by
  cases cat <;> rfl

/-- The summary component of one `storeData` application. -/
lemma storeData_summary (w : Wearer) (s : WorkoutSummary) (cat : Category) :
    ((storeData w s cat).getStore cat).summary
      = storeSummary (w.getStore cat).summary s cat := by
  unfold storeData
  rw [getStore_setStore]

/-- Storing a sample whose day is strictly later than every summarised day
appends a fresh payload bucket. -/
lemma storeSummary_append {l : List Bucket} {s : WorkoutSummary} {cat : Category}
    (hpast : ∀ b ∈ l, b.daysSinceUnixEpoch < dayIndexOf s.startTime) :
    storeSummary l s cat = l ++ [mkPayload s cat (dayIndexOf s.startTime)] := by
  unfold storeSummary
  cases hL : l.getLast? with
  | none => simp
  | some lb =>
    have hlt : lb.daysSinceUnixEpoch < dayIndexOf s.startTime :=
      hpast lb (mem_of_getLast?_eq_some hL)
    simp [Nat.ne_of_lt hlt]

/-- **C2.** For every metric, recording two samples that fall on the same
calendar day (with all earlier buckets on strictly earlier days, i.e. samples
arriving in non-decreasing time order with this day previously unseen) yields
exactly one summary bucket for that day whose value is the sum of the two
samples, preserves strict ordering by `daysSinceUnixEpoch`, and creates no
duplicate day entry. -/
theorem storeData_same_day_merges_once (w : Wearer) (cat : Category)
    (s1 s2 : WorkoutSummary)
    (hday : dayIndexOf s2.startTime = dayIndexOf s1.startTime)
    (hpast : ∀ b ∈ (w.getStore cat).summary,
      b.daysSinceUnixEpoch < dayIndexOf s1.startTime) :
    ((storeData (storeData w s1 cat) s2 cat).getStore cat).summary
        = (w.getStore cat).summary ++
          [{ mkPayload s1 cat (dayIndexOf s1.startTime) with
              value := metricValue s1 cat + metricValue s2 cat }] ∧
    (SummaryOrdered (w.getStore cat).summary →
      SummaryOrdered
        (((storeData (storeData w s1 cat) s2 cat).getStore cat).summary)) ∧
    (((storeData (storeData w s1 cat) s2 cat).getStore cat).summary).countP
        (fun b => b.daysSinceUnixEpoch = dayIndexOf s1.startTime) = 1 := by
  have key1 : ((storeData w s1 cat).getStore cat).summary
      = (w.getStore cat).summary ++ [mkPayload s1 cat (dayIndexOf s1.startTime)] := by
    rw [storeData_summary]
    exact storeSummary_append hpast
  have key2 : ((storeData (storeData w s1 cat) s2 cat).getStore cat).summary
      = (w.getStore cat).summary ++
        [{ mkPayload s1 cat (dayIndexOf s1.startTime) with
            value := metricValue s1 cat + metricValue s2 cat }] := by
    rw [storeData_summary, key1]
    unfold storeSummary
    rw [List.getLast?_concat]
    have hd : (mkPayload s1 cat (dayIndexOf s1.startTime)).daysSinceUnixEpoch
        = dayIndexOf s2.startTime := by
      rw [hday]; rfl
    simp only [hd, if_pos rfl, List.dropLast_concat]
    rfl
  refine ⟨key2, ?_, ?_⟩
  · intro hord
    rw [key2]
    unfold SummaryOrdered
    refine List.pairwise_append.mpr ⟨hord, List.pairwise_singleton _ _, ?_⟩
    intro a ha b hb
    rw [List.mem_singleton] at hb
    subst hb
    exact hpast a ha
  · rw [key2, List.countP_append]
    have h0 : ((w.getStore cat).summary).countP
        (fun b => b.daysSinceUnixEpoch = dayIndexOf s1.startTime) = 0 := by
      refine List.countP_eq_zero.mpr ?_
      intro b hb
      simp [Nat.ne_of_lt (hpast b hb)]
    rw [h0]
    simp [mkPayload]

/-- Witness for C2: two same-day workout summaries (day 18525) recorded on a
fresh wearer's step store merge into the single bucket
`(18525, 430 + 1160)`. -/
theorem storeData_same_day_merges_once_witness :
    ((storeData (storeData Wearer.init sampleA Category.steps) sampleB
        Category.steps).getStore Category.steps).summary
        = ((Wearer.init.getStore Category.steps).summary ++
          [{ mkPayload sampleA Category.steps (dayIndexOf sampleA.startTime) with
              value := metricValue sampleA Category.steps +
                metricValue sampleB Category.steps }]) ∧
    (SummaryOrdered (Wearer.init.getStore Category.steps).summary →
      SummaryOrdered
        (((storeData (storeData Wearer.init sampleA Category.steps) sampleB
            Category.steps).getStore Category.steps).summary)) ∧
    (((storeData (storeData Wearer.init sampleA Category.steps) sampleB
        Category.steps).getStore Category.steps).summary).countP
        (fun b => b.daysSinceUnixEpoch = dayIndexOf sampleA.startTime) = 1 :=
  storeData_same_day_merges_once Wearer.init Category.steps sampleA sampleB
    (by decide) (by intro b hb; simp [Wearer.init, Wearer.getStore] at hb)

/-- `storeHeartRateData` never changes the resting flag. -/
lemma storeHeartRateData_isResting (w : Wearer) (x : NewHeartRateData) :
    (storeHeartRateData w x).isResting = w.isResting := by
  unfold storeHeartRateData
  split <;> rfl

/-- While resting, `storeHeartRateData` appends one derived sample to the
resting stream. -/
lemma storeHeartRateData_resting (w : Wearer) (x : NewHeartRateData)
    (h : w.isResting = true) :
    (storeHeartRateData w x).heartRateData.resting
      = w.heartRateData.resting ++
        [⟨x.timeWhenMeasured, x.heartRate, dayIndexOf x.timeWhenMeasured⟩] := by
  unfold storeHeartRateData
  simp [h]

/-- Replaying a bpm list through `processHR` while resting appends exactly
the `mkSamples` stream and keeps the wearer resting. -/
lemma processHR_resting (bs : List ℚ) :
    ∀ (w : Wearer) (time : ℕ), w.isResting = true →
      (processHR w time bs).heartRateData.resting
          = w.heartRateData.resting ++ mkSamples time bs ∧
      (processHR w time bs).isResting = true := by
  induction bs with
  | nil =>
    intro w time h
    simp [processHR, mkSamples, h]
  | cons hr rest ih =>
    intro w time h
    simp only [processHR, mkSamples]
    obtain ⟨ih1, ih2⟩ := ih (storeHeartRateData w ⟨time, hr⟩) (time + 60)
      (by rw [storeHeartRateData_isResting]; exact h)
    refine ⟨?_, ih2⟩
    rw [ih1, storeHeartRateData_resting w _ h]
    simp

/-- `mkSamples` yields one sample per bpm value. -/
lemma mkSamples_length (bs : List ℚ) :
    ∀ t, (mkSamples t bs).length = bs.length := by
  induction bs with
  | nil => intro t; rfl
  | cons h r ih =>
    intro t
    simp [mkSamples, ih]

/-- `mkSamples` preserves the bpm values in order. -/
lemma mkSamples_rates (bs : List ℚ) :
    ∀ t, (mkSamples t bs).map HRSample.heartRate = bs := by
  induction bs with
  | nil => intro t; rfl
  | cons h r ih =>
    intro t
    simp [mkSamples, ih]

/-- When the whole 60-second cadence stays within one calendar day, every
generated sample carries the starting day index. -/
lemma mkSamples_days (bs : List ℚ) :
    ∀ t, (∀ i, i < bs.length → dayIndexOf (t + 60 * i) = dayIndexOf t) →
      ∀ s ∈ mkSamples t bs, s.daysSinceUnixEpoch = dayIndexOf t := by
  induction bs with
  | nil =>
    intro t _ s hs
    simp [mkSamples] at hs
  | cons h r ih =>
    intro t hdays s hs
    simp only [mkSamples, List.mem_cons] at hs
    rcases hs with rfl | hs
    · rfl
    · have hr_ne : r ≠ [] := by
        rintro rfl
        simp [mkSamples] at hs
      have hrlen : 0 < r.length := List.length_pos.mpr hr_ne
      have e60 : dayIndexOf (t + 60) = dayIndexOf t := by
        simpa using hdays 1 (by simp; omega)
      have hyp2 : ∀ i, i < r.length →
          dayIndexOf (t + 60 + 60 * i) = dayIndexOf (t + 60) := by
        intro i hi
        have e1 := hdays (i + 1) (by simp; omega)
        have e2 : t + 60 + 60 * i = t + 60 * (i + 1) := by ring
        rw [e2, e1, e60]
      rw [ih (t + 60) hyp2 s hs, e60]

/-- Folding a stream of samples that all carry the anchor day accumulates
their bpm sum and count and banks nothing. -/
lemma hrFold_same_day (d0 : ℕ) :
    ∀ (samples : List HRSample),
      (∀ s ∈ samples, s.daysSinceUnixEpoch = d0) →
      ∀ total count banked,
        hrFold d0 samples total count banked
          = (total + (samples.map HRSample.heartRate).sum,
             count + samples.length, banked) := by
  intro samples
  induction samples with
  | nil =>
    intro _ total count banked
    simp [hrFold]
  | cons s r ih =>
    intro hall total count banked
    have hs : s.daysSinceUnixEpoch = d0 := hall s (by simp)
    simp only [hrFold, if_pos hs]
    rw [ih (fun x hx => hall x (by simp [hx]))]
    simp only [List.map_cons, List.sum_cons, List.length_cons, Prod.mk.injEq]
    refine ⟨by ring, by omega, trivial⟩

/-- Evaluating the resting-heart-rate query on a wearer whose resting stream
is a known cons cell. -/
lemma getAverageRestingHeartRate_cons (w : Wearer) (s0 : HRSample)
    (tail : List HRSample) (hres : w.heartRateData.resting = s0 :: tail)
    (n : ℕ) :
    getAverageRestingHeartRate w n =
      (let r := hrFold s0.daysSinceUnixEpoch (s0 :: tail) 0 0 []
       let banked := if r.2.1 = 0 then r.2.2 else r.2.2 ++ [jsDiv r.1 r.2.1]
       match banked with
       | [] => some 0
       | _ :: _ => (jsSum banked).map (fun a => a / (banked.length : ℚ))) := by
  unfold getAverageRestingHeartRate
  rw [hres]

/-- **C8.** Recording a heart-rate batch of 10 bpm samples at a 60-second
cadence from `start`, all within the same calendar day, on a fresh (resting)
wearer produces exactly 10 resting-stream entries, and
`getAverageRestingHeartRate(1)` equals their arithmetic mean. -/
theorem heart_rate_batch_same_day_average (start : ℕ) (bpms : List ℚ)
    (hlen : bpms.length = 10)
    (hday : dayIndexOf (start + 540) = dayIndexOf start) :
    (processSimulatedData Wearer.init
        (some { startTime := start, heartRate := bpms })).heartRateData.resting.length
        = 10 ∧
    getAverageRestingHeartRate
        (processSimulatedData Wearer.init
          (some { startTime := start, heartRate := bpms })) 1
      = some (bpms.sum / 10) := by
  have hproc : processSimulatedData Wearer.init
      (some { startTime := start, heartRate := bpms })
      = processHR Wearer.init start bpms := rfl
  obtain ⟨hres, _⟩ := processHR_resting bpms Wearer.init start rfl
  have hres' : (processHR Wearer.init start bpms).heartRateData.resting
      = mkSamples start bpms := by
    rw [hres]
    rfl
  have hdays : ∀ i, i < bpms.length →
      dayIndexOf (start + 60 * i) = dayIndexOf start := by
    intro i hi
    have hle1 : dayIndexOf start ≤ dayIndexOf (start + 60 * i) := by
      unfold dayIndexOf
      exact Nat.div_le_div_right (by omega)
    have hle2 : dayIndexOf (start + 60 * i) ≤ dayIndexOf (start + 540) := by
      unfold dayIndexOf
      exact Nat.div_le_div_right (by omega)
    omega
  have hall : ∀ s ∈ mkSamples start bpms,
      s.daysSinceUnixEpoch = dayIndexOf start := mkSamples_days bpms start hdays
  rw [hproc]
  constructor
  · rw [hres', mkSamples_length]
    exact hlen
  · cases bpms with
    | nil => simp at hlen
    | cons b rbs =>
      have hcons : mkSamples start (b :: rbs)
          = ⟨start, b, dayIndexOf start⟩ :: mkSamples (start + 60) rbs := rfl
      have hfold := hrFold_same_day (dayIndexOf start)
        (mkSamples start (b :: rbs)) hall 0 0 []
      rw [mkSamples_rates, mkSamples_length, hlen] at hfold
      rw [getAverageRestingHeartRate_cons (processHR Wearer.init start (b :: rbs))
        ⟨start, b, dayIndexOf start⟩ (mkSamples (start + 60) rbs)
        (by rw [hres', hcons]) 1]
      simp only
      rw [← hcons, hfold]
      simp [jsDiv, jsSum]

/-- Witness for C8: ten samples 60–69 bpm starting at time 0 (all on day 0)
average to 129/2. -/
theorem heart_rate_batch_same_day_average_witness :
    (processSimulatedData Wearer.init
        (some (HeartRateBatch.mk 0
          [60, 61, 62, 63, 64, 65, 66, 67, 68, 69]))).heartRateData.resting.length
        = 10 ∧
    getAverageRestingHeartRate
        (processSimulatedData Wearer.init
          (some (HeartRateBatch.mk 0
            [60, 61, 62, 63, 64, 65, 66, 67, 68, 69]))) 1
      = some (([60, 61, 62, 63, 64, 65, 66, 67, 68, 69] : List ℚ).sum / 10) :=
  heart_rate_batch_same_day_average 0 [60, 61, 62, 63, 64, 65, 66, 67, 68, 69]
    (by rfl) (by rfl)

/-- **C9.** Calling `startWorkout` while a workout is already in progress, or
`endWorkout` when none is, refuses the transition and mutates no state: the
wearer aggregate (session, summaries, raw data, heart-rate streams, resting
flag) is returned entirely unchanged, and the refused `endWorkout` yields no
summary. -/
theorem workout_session_conflicts_leave_state_unchanged (w : Wearer) :
    (∀ (d : SimData) (wi : Workout),
      w.workoutInstance = some wi → startWorkout w d = w) ∧
    (w.workoutInstance = none → endWorkout w = (w, none)) := by
  constructor
  · intro d wi h
    unfold startWorkout
    rw [h]
  · intro h
    unfold endWorkout
    rw [h]

/-- Witness for C9 at concrete states: a wearer with a walk in progress
refuses a second `startWorkout`, and a fresh wearer's `endWorkout` is a
no-op returning no summary. -/
theorem workout_session_conflicts_leave_state_unchanged_witness :
    startWorkout busyWearer walkFixture = busyWearer ∧
    endWorkout Wearer.init = (Wearer.init, none) :=
  ⟨(workout_session_conflicts_leave_state_unchanged busyWearer).1 walkFixture
      (Workout.create walkFixture) rfl,
    (workout_session_conflicts_leave_state_unchanged Wearer.init).2 rfl⟩

end FitnessWatch
